import Mathlib

set_option autoImplicit false

/-!
Shallow embedding of the sheet-selection and summary-extraction logic of
`src/app.py` (function `build_outputs` and its nested helpers
`build_filtered_workbook_bytes` and `build_summary_bytes`).

The UI layer (streamlit widgets, session state, download buttons) is out of
scope; the embedding receives the already-resolved inputs: the Excel file
name, the two loaded workbook values (`wb`, loaded with `data_only=False`,
and `wb_vals`, loaded with `data_only=True`), the parsed `SheetName` CSV
column, and the output mode.  Workbook mutation (`wb.remove`) is made
explicit by threading a state value.
-/

namespace SheetSelector

/-- A cell value in a loaded workbook: empty (Python `None`), text, or a
number.  Numbers are modelled as rationals. -/
inductive CellV where
  | empty
  | str (s : String)
  | num (q : Rat)
  deriving DecidableEq

/-- A sheet is a grid of cells: a list of rows, each row a list of cells.
The cell at 1-indexed address (row r, column c), as used by openpyxl, is
entry (c-1) of row (r-1). -/
abbrev Sheet := List (List CellV)

/-- A workbook is an ordered sequence of named sheets
(the order of openpyxl `wb.sheetnames`). -/
abbrev Workbook := List (String × Sheet)

/-- Source `wb.sheetnames`: the sheet names in workbook order. -/
def sheetnames (wb : Workbook) : List String := wb.map Prod.fst

/-- A cell of a row, 0-indexed; a position beyond the stored row reads as an
empty cell (openpyxl materialises missing cells with value `None`). -/
def cellAt (row : List CellV) (c : Nat) : CellV := row.getD c CellV.empty

/-- Reading a 1-indexed address may fail with an exception (modelling an
openpyxl read error, e.g. the addressed row lies beyond the sheet);
`build_summary_bytes` wraps each such read in `try/except`. -/
def getCellE (ws : Sheet) (r c : Nat) : Except Unit CellV :=
  match ws.get? (r - 1) with
  | none => Except.error ()
  | some row => Except.ok (cellAt row (c - 1))

/-- A guarded cell read: the `except` branch turns any failure into `None`. -/
def tryCell (ws : Sheet) (r c : Nat) : CellV :=
  match getCellE ws r c with
  | Except.error _ => CellV.empty
  | Except.ok v => v

/-- Strip whitespace from both ends of a character list (Python `str.strip()`). -/
def trimList (cs : List Char) : List Char :=
  ((cs.dropWhile Char.isWhitespace).reverse.dropWhile Char.isWhitespace).reverse

/-- Lowercase every character (Python `str.lower()`, ASCII range). -/
def lowerList (cs : List Char) : List Char := cs.map Char.toLower

/-- Python `str.strip()` at the string level. -/
def pyTrim (s : String) : String := String.mk (trimList s.data)

/-- Python `str.split()` with no arguments: split on whitespace runs,
dropping empty pieces; `cur` accumulates the current word reversed. -/
def splitWSAux : List Char → List Char → List (List Char)
  | [], cur => if cur.isEmpty then [] else [cur.reverse]
  | c :: rest, cur =>
    if c.isWhitespace then
      if cur.isEmpty then splitWSAux rest [] else cur.reverse :: splitWSAux rest []
    else splitWSAux rest (c :: cur)

/-- Python `str.split()` over a character list. -/
def pySplitWords (cs : List Char) : List (List Char) := splitWSAux cs []

/-- Python `" ".join(words)`. -/
def joinWords : List (List Char) → List Char
  | [] => []
  | [w] => w
  | w :: rest => w ++ ' ' :: joinWords rest

/-- The string normalisation of `norm` in `build_summary_bytes`:
`" ".join(str(s).strip().lower().split())` — trim, lowercase, collapse
internal whitespace runs to single spaces. -/
def normStr (s : String) : String :=
  String.mk (joinWords (pySplitWords (lowerList (trimList s.data))))

/-- Python `str()` of a cell value as fed to `norm`.  The `None` case never
reaches `str()` (it is short-circuited to `""`); a number renders to a
digits-only form, which suffices here because labels are compared against a
purely alphabetic phrase. -/
def cellStr : CellV → String
  | CellV.empty => ""
  | CellV.str s => s
  | CellV.num q => toString q.num ++ (if q.den = 1 then "" else "/" ++ toString q.den)

/-- Function `norm` applied to a raw cell value: `None` maps to `""`, anything else to
the normalised form of its string rendering. -/
def norm : CellV → String
  | CellV.empty => ""
  | v => normStr (cellStr v)

/-- The constant `TARGET` of `build_summary_bytes`. -/
def TARGET : String := "total net asset value after ic fall"

/-- Contiguous-sublist search: is the needle a prefix of some suffix? -/
def subListSearch (needle : List Char) : List Char → Bool
  | [] => needle.isEmpty
  | c :: rest => needle.isPrefixOf (c :: rest) || subListSearch needle rest

/-- Python substring test `needle in hay`. -/
def strContainsSub (hay needle : String) : Bool :=
  subListSearch needle.toList hay.toList

/-- The match condition of the NAV scan:
`label and (label == norm(TARGET) or norm(TARGET) in label)` applied to the
normalised column-A cell value. -/
def labelMatches (v : CellV) : Bool :=
  let label := norm v
  label ≠ "" && (label == normStr TARGET || strContainsSub label (normStr TARGET))

/-- The NAV scan loop: walk the rows top-to-bottom; on the first row whose
column-A cell matches the label condition, return the column-B cell of that
row and stop (`break`); return nothing when no row matches. -/
def navScan : Sheet → Option CellV
  | [] => none
  | row :: rest =>
    if labelMatches (cellAt row 0) then some (cellAt row 1) else navScan rest

/-- Variable `nav_val` after the scan: initialised to `None`, overwritten on the first
match. -/
def navValue (ws : Sheet) : CellV := (navScan ws).getD CellV.empty

/-- Digit-list value, most significant first. -/
def digitsVal (ds : List Char) : Nat :=
  ds.foldl (fun n c => 10 * n + (c.toNat - 48)) 0

/-- Modelled from the string-to-number conversion that
`pd.to_numeric(..., errors="coerce")` applies to text: an optional sign, an
integer part and an optional fractional part after a single dot; anything
else (for instance a thousands separator) fails to parse.  The result is
kept unevaluated as (signed mantissa, number of fraction digits), denoting
the value mantissa / 10 ^ digits. -/
def parseNumber (s : String) : Option (Int × Nat) :=
  let cs0 := trimList s.data
  let neg : Bool := cs0.head? = some '-'
  let cs := if cs0.head? = some '-' ∨ cs0.head? = some '+' then cs0.tail else cs0
  let ip := cs.takeWhile Char.isDigit
  let rest := cs.drop ip.length
  let signed : Nat → Int := fun n => if neg then -(n : Int) else (n : Int)
  match rest with
  | [] => if ip.isEmpty then none else some (signed (digitsVal ip), 0)
  | '.' :: fr =>
    if fr.all Char.isDigit ∧ ¬(ip.isEmpty ∧ fr.isEmpty) then
      some (signed (digitsVal ip * 10 ^ fr.length + digitsVal fr), fr.length)
    else none
  | _ => none

/-- The rational denoted by a parsed (mantissa, fraction-digit count) pair. -/
def partsToRat (p : Int × Nat) : Rat := (p.1 : Rat) / (10 : Rat) ^ p.2

/-- Coercion `pd.to_numeric(value, errors="coerce")` on a single cell value: numbers
pass through, missing stays missing, text parses or becomes missing. -/
def toNumeric : CellV → Option Rat
  | CellV.empty => none
  | CellV.num q => some q
  | CellV.str s => (parseNumber s).map partsToRat

/-- One summary record, after the numeric coercion of the NAV and Cash
columns. -/
structure Row where
  Name : CellV
  NAV : Option Rat
  Cash : Option Rat
  deriving DecidableEq

/-- One summary row for a sheet: Name from B4 (row 4, column 2), Cash from
C27 (row 27, column 3), NAV from the column-A label scan; each read is
guarded by its own `try/except`, and NAV and Cash are then numerically
coerced. -/
def summaryRow (ws : Sheet) : Row :=
  { Name := tryCell ws 4 2
    NAV := toNumeric (navValue ws)
    Cash := toNumeric (tryCell ws 27 3) }

/-- Lookup `wb_vals[tab]`: find a sheet by name. -/
def sheetFor (wb : Workbook) (tab : String) : Sheet :=
  match wb.find? (fun p => p.1 == tab) with
  | some p => p.2
  | none => []

/-- The row loop of `build_summary_bytes`: one row per matched sheet name, in
matched-list order, reading from the values-mode workbook. -/
def build_summary (wbVals : Workbook) (matched : List String) : List Row :=
  matched.map (fun tab => summaryRow (sheetFor wbVals tab))

/-- Source `matched = [s for s in wanted if s in source_sheetnames]`. -/
def matchedOf (wanted src : List String) : List String :=
  wanted.filter (fun s => src.contains s)

/-- Source `missing = [s for s in wanted if s not in source_sheetnames]`. -/
def missingOf (wanted src : List String) : List String :=
  wanted.filter (fun s => !src.contains s)

/-- The `SheetName` column as pandas delivers it under `dtype=str`: a missing
cell (NaN) is `none`, a present cell is `some` of its unmodified text.
`wanted_df["SheetName"].dropna().map(str.strip).tolist()`. -/
def parseWanted (col : List (Option String)) : List String :=
  (col.filterMap id).map pyTrim

/-- The final path component of a name (Python pathlib keeps the part after
the last separator). -/
def lastBaseName (p : String) : List Char :=
  (p.data.reverse.takeWhile (fun c => c != '/')).reverse

/-- Python `Path(p).suffix`: the final component from its last dot onward,
empty when that dot is absent, first, or last. -/
def pathSuffix (p : String) : String :=
  let name := lastBaseName p
  let idxs := (List.range name.length).filter (fun i => name.getD i ' ' == '.')
  match idxs.getLast? with
  | none => ""
  | some i => if 0 < i ∧ i < name.length - 1 then String.mk (name.drop i) else ""

/-- Source `keep_vba = Path(excel_name).suffix.lower() == ".xlsm"`. -/
def keepVbaOf (excelName : String) : Bool :=
  String.mk (lowerList (pathSuffix excelName).data) == ".xlsm"

/-- Source `filtered_ext = ".xlsm" if keep_vba else ".xlsx"`. -/
def filteredExt (excelName : String) : String :=
  if keepVbaOf excelName then ".xlsm" else ".xlsx"

/-- Source `wb.remove(wb[name])`: drop the sheet with the given name (sheet names
are unique in a workbook; the first occurrence is removed). -/
def removeSheet (wb : Workbook) (name : String) : Workbook :=
  wb.eraseP (fun p => p.1 == name)

/-- The deletion loop of `build_filtered_workbook_bytes`: iterate over a
stable snapshot of the sheet names (`list(wb.sheetnames)`), removing every
sheet whose name is not in the wanted set. -/
def filterLoop (snapshot wantedSet : List String) (wb : Workbook) : Workbook :=
  match snapshot with
  | [] => wb
  | n :: rest =>
    filterLoop rest wantedSet (if wantedSet.contains n then wb else removeSheet wb n)

/-- Output mode selected in the UI radio:
`Filtered workbook | Summary sheet | Both`. -/
inductive Mode where
  | filtered
  | summary
  | both
  deriving DecidableEq

/-- The abort conditions of `build_outputs` (each is an `st.error` followed by
`st.stop()`). -/
inductive BuildErr where
  | missingColumn
  | emptySelection
  | noMatch
  deriving DecidableEq

/-- The two in-memory workbook objects of one build request: `wb` (loaded
with `data_only=False`, mutated by the filtering step) and `wb_vals` (loaded
with `data_only=True`, read by the summary step). -/
structure LoadedState where
  wb : Workbook
  wbVals : Workbook
  deriving DecidableEq

/-- What a successful build offers for download.  `warnMissing` holds the
names listed by the `st.warning` call of the summary branch; the warning is
displayed exactly when this list is nonempty. -/
structure BuildResult where
  filteredOut : Option (Workbook × String)
  summaryOut : Option (List Row)
  warnMissing : List String
  deriving DecidableEq

/-- Function `build_filtered_workbook_bytes` as a state transformer: it mutates `wb`
in place and leaves `wb_vals` alone. -/
def applyFilter (wantedSet : List String) (st : LoadedState) : LoadedState :=
  { st with wb := filterLoop (sheetnames st.wb) wantedSet st.wb }

/-- Function `build_outputs`, with the workbook state threaded explicitly.  `col` is
the `SheetName` column when present (`none` models a CSV without that
column).  Returns the outcome together with the final workbook state (on an
abort, the state at the moment of `st.stop()`). -/
def build_outputs (excelName : String) (col : Option (List (Option String)))
    (mode : Mode) (st : LoadedState) :
    Except BuildErr BuildResult × LoadedState :=
  match col with
  | none => (Except.error BuildErr.missingColumn, st)
  | some c =>
    let wanted := parseWanted c
    if wanted.isEmpty then (Except.error BuildErr.emptySelection, st)
    else
      let src := sheetnames st.wb
      let matched := matchedOf wanted src
      let missing := missingOf wanted src
      if matched.isEmpty then (Except.error BuildErr.noMatch, st)
      else
        let stage1 :=
          if mode = Mode.filtered ∨ mode = Mode.both then
            let st1 := applyFilter wanted st
            (st1, some (st1.wb, "SelectedSheets" ++ filteredExt excelName))
          else (st, none)
        let stage2 :=
          if mode = Mode.summary ∨ mode = Mode.both then
            (some (build_summary stage1.1.wbVals matched), missing)
          else (none, ([] : List String))
        (Except.ok
          { filteredOut := stage1.2
            summaryOut := stage2.1
            warnMissing := stage2.2 }, stage1.1)

/-- A fixture workbook used by concrete witnesses. -/
def wbA : Workbook := [("Fund A", []), ("Fund B", []), ("Fund C", [])]

/-! ## Shared lemmas -/

/-- Membership test `l.contains x` agrees with list membership (String equality is lawful). -/
theorem contains_true_iff (l : List String) (x : String) :
    l.contains x = true ↔ x ∈ l := by
  simp [List.contains, List.elem_iff]

/-- A filter and its complement split the multiplicity of every element. -/
theorem count_filter_partition {α : Type} [DecidableEq α] (p : α → Bool)
    (l : List α) (x : α) :
    (l.filter p).count x + (l.filter (fun a => !p a)).count x = l.count x := by
  induction l with
  | nil => rfl
  | cons a t ih =>
    by_cases hpa : p a = true <;>
      simp [List.filter_cons, hpa, List.count_cons] <;> omega

/-- C1: `matched` is the sublist of the wanted list whose names occur among
the sheet names and `missing` the sublist of those that do not; they are
order-preserving, disjoint, and together account for every occurrence in the
wanted list. -/
theorem c1_match_partition (wanted src : List String) :
    (∀ x, x ∈ matchedOf wanted src ↔ x ∈ wanted ∧ x ∈ src)
  ∧ (∀ x, x ∈ missingOf wanted src ↔ x ∈ wanted ∧ x ∉ src)
  ∧ (matchedOf wanted src).Sublist wanted
  ∧ (missingOf wanted src).Sublist wanted
  ∧ (∀ x, (matchedOf wanted src).count x + (missingOf wanted src).count x
        = wanted.count x)
  ∧ (∀ x, ¬(x ∈ matchedOf wanted src ∧ x ∈ missingOf wanted src)) := by
  refine ⟨?_, ?_, ?_, ?_, ?_, ?_⟩
  · intro x
    simp [matchedOf, List.mem_filter, contains_true_iff]
  · intro x
    simp [missingOf, List.mem_filter, contains_true_iff]
  · exact List.filter_sublist wanted
  · exact List.filter_sublist wanted
  · intro x
    exact count_filter_partition (fun s => src.contains s) wanted x
  · intro x h
    rcases h with ⟨h1, h2⟩
    simp [matchedOf, List.mem_filter] at h1
    simp [missingOf, List.mem_filter] at h2
    exact absurd h1.2 (by simpa using h2.2)

/-- C1 witness: the partition at a concrete wanted list and sheet set. -/
theorem c1_match_partition_witness :
    ("Fund B" ∈ matchedOf ["Fund B", "Fund D"] (sheetnames wbA)
        ↔ "Fund B" ∈ ["Fund B", "Fund D"] ∧ "Fund B" ∈ sheetnames wbA)
  ∧ matchedOf ["Fund B", "Fund D"] (sheetnames wbA) = ["Fund B"]
  ∧ missingOf ["Fund B", "Fund D"] (sheetnames wbA) = ["Fund D"] :=
  ⟨(c1_match_partition ["Fund B", "Fund D"] (sheetnames wbA)).1 "Fund B",
    rfl, rfl⟩

/-- The scan returns nothing when no row's column-A cell matches. -/
theorem navScan_eq_none (ws : Sheet)
    (h : ∀ row ∈ ws, labelMatches (cellAt row 0) = false) :
    navScan ws = none := by
  induction ws with
  | nil => rfl
  | cons row rest ih =>
    have hrow := h row (by simp)
    simp only [navScan, hrow]
    simp only [Bool.false_eq_true, if_false]
    exact ih (fun r hr => h r (by simp [hr]))

/-- The scan returns the column-B cell of the first matching row. -/
theorem navScan_first_match (ws : Sheet) (n : Nat) (hn : n < ws.length)
    (hbefore : ∀ m, m < n → labelMatches (cellAt (ws.getD m []) 0) = false)
    (hmatch : labelMatches (cellAt (ws.getD n []) 0) = true) :
    navScan ws = some (cellAt (ws.getD n []) 1) := by
  induction ws generalizing n with
  | nil => exact absurd hn (by simp)
  | cons row rest ih =>
    cases n with
    | zero =>
      simp only [List.getD_cons_zero] at hmatch ⊢
      simp [navScan, hmatch]
    | succ m =>
      have hrow : labelMatches (cellAt row 0) = false := by
        have := hbefore 0 (Nat.succ_pos m)
        simpa using this
      simp only [List.getD_cons_succ] at hmatch ⊢
      simp only [navScan, hrow, Bool.false_eq_true, if_false]
      exact ih m (by simpa using hn)
        (fun k hk => by simpa using hbefore (k + 1) (Nat.succ_lt_succ hk)) hmatch

/-- C2: the NAV scan walks column A top-to-bottom; a cell matches exactly
when its normalised label is nonempty and equals the normalised target or
contains it as a substring; the first matching row supplies the column-B
value and later matches are ignored; no match yields nothing.  The target
phrase is matched case- and whitespace-insensitively. -/
theorem c2_nav_label_scan :
    (∀ ws : Sheet, (∀ row ∈ ws, labelMatches (cellAt row 0) = false) →
        navScan ws = none)
  ∧ (∀ ws : Sheet, ∀ n : Nat, n < ws.length →
      (∀ m, m < n → labelMatches (cellAt (ws.getD m []) 0) = false) →
      labelMatches (cellAt (ws.getD n []) 0) = true →
        navScan ws = some (cellAt (ws.getD n []) 1))
  ∧ (∀ v : CellV, labelMatches v = true ↔
      (norm v ≠ "" ∧ (norm v = normStr TARGET
        ∨ strContainsSub (norm v) (normStr TARGET) = true)))
  ∧ normStr "Total Net Asset Value  After IC Fall" = TARGET
  ∧ normStr "TOTAL NET ASSET VALUE AFTER IC FALL" = TARGET
  ∧ normStr "total net asset value after ic fall" = TARGET
  ∧ normStr TARGET = TARGET
  ∧ labelMatches CellV.empty = false := by
  refine ⟨navScan_eq_none, navScan_first_match, ?_, rfl, rfl, rfl, rfl, rfl⟩
  intro v
  simp only [labelMatches, Bool.and_eq_true, Bool.or_eq_true, beq_iff_eq,
    ne_eq, decide_eq_true_eq]

/-- C2 witness: on a sheet whose second row holds the target label (odd case
and spacing) in column A, the scan returns that row's column-B value. -/
theorem c2_nav_label_scan_witness :
    navScan [[CellV.str "irrelevant header"],
      [CellV.str " TOTAL Net asset  value after IC fall ", CellV.num 5000000]]
      = some (CellV.num 5000000)
  ∧ labelMatches (CellV.str "Total Net Asset Value  After IC Fall") = true := by
  constructor
  · exact c2_nav_label_scan.2.1
      [[CellV.str "irrelevant header"],
        [CellV.str " TOTAL Net asset  value after IC fall ", CellV.num 5000000]]
      1 (by decide)
      (fun m hm => by
        have hm0 : m = 0 := by omega
        subst hm0
        rfl)
      (by rfl)
  · exact rfl

/-- A sheet whose name appears nowhere in the remaining snapshot survives the
deletion loop in place. -/
theorem filterLoop_cons_notin (snapshot S : List String) (p : String × Sheet)
    (wb : Workbook) (h : p.1 ∉ snapshot) :
    filterLoop snapshot S (p :: wb) = p :: filterLoop snapshot S wb := by
  induction snapshot generalizing wb with
  | nil => rfl
  | cons n rest ih =>
    have hne : p.1 ≠ n := fun hc => h (by simp [hc])
    have hrest : p.1 ∉ rest := fun hc => h (by simp [hc])
    by_cases hc : S.contains n = true
    · simp only [filterLoop, hc, if_true]
      exact ih wb hrest
    · simp only [filterLoop, hc, Bool.false_eq_true, if_false]
      have hrm : removeSheet (p :: wb) n = p :: removeSheet wb n := by
        simp only [removeSheet, List.eraseP_cons]
        have : (p.1 == n) = false := by simpa using hne
        simp [this]
      rw [hrm]
      exact ih (removeSheet wb n) hrest

/-- Running the deletion loop over a snapshot of the (duplicate-free) sheet
names keeps exactly the sheets whose name is in the wanted set, in their
original relative order. -/
theorem filterLoop_eq_filter (wb : Workbook) (S : List String)
    (hnd : (sheetnames wb).Nodup) :
    filterLoop (sheetnames wb) S wb = wb.filter (fun p => S.contains p.1) := by
  induction wb with
  | nil => rfl
  | cons p rest ih =>
    have hnd2 : (p.1 :: sheetnames rest).Nodup := hnd
    have hnotin : p.1 ∉ sheetnames rest := (List.nodup_cons.mp hnd2).1
    have hndrest : (sheetnames rest).Nodup := (List.nodup_cons.mp hnd2).2
    have step : filterLoop (sheetnames (p :: rest)) S (p :: rest)
        = filterLoop (sheetnames rest) S
            (if S.contains p.1 = true then p :: rest
              else removeSheet (p :: rest) p.1) := rfl
    rw [step]
    by_cases hc : S.contains p.1 = true
    · rw [if_pos hc, filterLoop_cons_notin (sheetnames rest) S p rest hnotin,
        ih hndrest]
      simp only [List.filter_cons]
      rw [if_pos hc]
    · rw [if_neg hc]
      have hrm : removeSheet (p :: rest) p.1 = rest := by
        simp [removeSheet, List.eraseP_cons]
      rw [hrm, ih hndrest]
      simp only [List.filter_cons]
      rw [if_neg hc]

/-- The names of a filtered workbook are the filtered names. -/
theorem sheetnames_filter (wb : Workbook) (S : List String) :
    sheetnames (wb.filter (fun p => S.contains p.1))
      = (sheetnames wb).filter (fun n => S.contains n) := by
  induction wb with
  | nil => rfl
  | cons p rest ih =>
    simp only [sheetnames] at ih ⊢
    by_cases hc : S.contains p.1 = true
    · simp only [List.filter_cons, List.map_cons, hc, if_true]
      exact congrArg (List.cons p.1) ih
    · simp only [List.filter_cons, List.map_cons, hc, Bool.false_eq_true, if_false]
      exact ih

/-- C3: the filtered workbook contains exactly the source sheets whose name
is in the wanted set, in their original relative order; a wanted set
covering every sheet name leaves the workbook unchanged in sheets and
names. -/
theorem c3_filtered_workbook (wb : Workbook) (wanted : List String)
    (hnd : (sheetnames wb).Nodup) :
    filterLoop (sheetnames wb) wanted wb
        = wb.filter (fun p => wanted.contains p.1)
  ∧ sheetnames (filterLoop (sheetnames wb) wanted wb)
        = (sheetnames wb).filter (fun n => wanted.contains n)
  ∧ (∀ p, p ∈ filterLoop (sheetnames wb) wanted wb
        ↔ p ∈ wb ∧ p.1 ∈ wanted)
  ∧ ((∀ n ∈ sheetnames wb, n ∈ wanted) →
        filterLoop (sheetnames wb) wanted wb = wb) := by
  have hmain := filterLoop_eq_filter wb wanted hnd
  refine ⟨hmain, ?_, ?_, ?_⟩
  · rw [hmain]
    exact sheetnames_filter wb wanted
  · intro p
    rw [hmain]
    simp [List.mem_filter, contains_true_iff]
  · intro hall
    rw [hmain]
    apply List.filter_eq_self.mpr
    intro p hp
    exact (contains_true_iff wanted p.1).mpr
      (hall p.1 (List.mem_map_of_mem Prod.fst hp))

/-- C3 witness: filtering the fixture workbook by its full name set leaves
it unchanged; filtering by a singleton keeps exactly that sheet. -/
theorem c3_filtered_workbook_witness :
    filterLoop (sheetnames wbA) ["Fund A", "Fund B", "Fund C"] wbA = wbA
  ∧ filterLoop (sheetnames wbA) ["Fund B"] wbA = [("Fund B", [])] := by
  constructor
  · exact (c3_filtered_workbook wbA ["Fund A", "Fund B", "Fund C"]
      (by decide)).2.2.2 (by decide)
  · have h := (c3_filtered_workbook wbA ["Fund B"] (by decide)).1
    rw [h]
    rfl

/-- C4 counterexample: a partial match run in mode "Filtered workbook"
(sheets Fund A/B/C, selection Fund B and Fund D) succeeds and outputs
exactly sheet Fund B, but the missing name Fund D is not reported: the
warning list is empty even though the missing list is not, refuting the
claim for the mode "Filtered workbook". -/
theorem c4_counterexample :
    (build_outputs "Book.xlsx" (some [some "Fund B", some "Fund D"])
        Mode.filtered ⟨wbA, wbA⟩).1
      = Except.ok
          { filteredOut := some ([("Fund B", [])], "SelectedSheets.xlsx"),
            summaryOut := none,
            warnMissing := [] }
  ∧ missingOf (parseWanted [some "Fund B", some "Fund D"]) (sheetnames wbA)
      = ["Fund D"] :=
  ⟨rfl, rfl⟩

/-- C4 (amended): on a partial match the build proceeds with the matched
subset in every mode, but the missing names are reported as a warning only
in the modes that build the summary ("Summary sheet" and "Both"); in mode
"Filtered workbook" no missing-name warning is shown. -/
theorem c4_partial_match (excelName : String) (c : List (Option String))
    (mode : Mode) (st : LoadedState)
    (hm : matchedOf (parseWanted c) (sheetnames st.wb) ≠ [])
    (hmiss : missingOf (parseWanted c) (sheetnames st.wb) ≠ []) :
    ∃ r st1, build_outputs excelName (some c) mode st = (Except.ok r, st1)
  ∧ ((mode = Mode.summary ∨ mode = Mode.both) →
      r.warnMissing = missingOf (parseWanted c) (sheetnames st.wb)
        ∧ r.warnMissing ≠ [])
  ∧ (mode = Mode.filtered → r.warnMissing = []) := by
  have hwne : parseWanted c ≠ [] := by
    intro h
    exact hm (by simp [matchedOf, h])
  have hw : (parseWanted c).isEmpty = false := by
    cases h : parseWanted c with
    | nil => exact absurd h hwne
    | cons a l => rfl
  have hmf : (matchedOf (parseWanted c) (sheetnames st.wb)).isEmpty = false := by
    cases h : matchedOf (parseWanted c) (sheetnames st.wb) with
    | nil => exact absurd h hm
    | cons a l => rfl
  cases mode with
  | filtered =>
    have key : build_outputs excelName (some c) Mode.filtered st
        = (Except.ok
            { filteredOut := some ((applyFilter (parseWanted c) st).wb,
                "SelectedSheets" ++ filteredExt excelName),
              summaryOut := none,
              warnMissing := [] },
            applyFilter (parseWanted c) st) := by
      simp [build_outputs, hw, hmf]
    exact ⟨_, _, key, by simp, fun _ => rfl⟩
  | summary =>
    have key : build_outputs excelName (some c) Mode.summary st
        = (Except.ok
            { filteredOut := none,
              summaryOut := some (build_summary st.wbVals
                (matchedOf (parseWanted c) (sheetnames st.wb))),
              warnMissing := missingOf (parseWanted c) (sheetnames st.wb) },
            st) := by
      simp [build_outputs, hw, hmf]
    exact ⟨_, _, key, fun _ => ⟨rfl, hmiss⟩, by simp⟩
  | both =>
    have key : build_outputs excelName (some c) Mode.both st
        = (Except.ok
            { filteredOut := some ((applyFilter (parseWanted c) st).wb,
                "SelectedSheets" ++ filteredExt excelName),
              summaryOut := some (build_summary
                (applyFilter (parseWanted c) st).wbVals
                (matchedOf (parseWanted c) (sheetnames st.wb))),
              warnMissing := missingOf (parseWanted c) (sheetnames st.wb) },
            applyFilter (parseWanted c) st) := by
      simp [build_outputs, hw, hmf]
    exact ⟨_, _, key, fun _ => ⟨rfl, hmiss⟩, by simp⟩

/-- C4 witness: the partial-match run of the counterexample scenario in mode
"Both" succeeds and reports Fund D. -/
theorem c4_partial_match_witness :
    ∃ r st1,
      build_outputs "Book.xlsx" (some [some "Fund B", some "Fund D"])
          Mode.both ⟨wbA, wbA⟩ = (Except.ok r, st1)
    ∧ ((Mode.both = Mode.summary ∨ Mode.both = Mode.both) →
        r.warnMissing = missingOf (parseWanted [some "Fund B", some "Fund D"])
            (sheetnames wbA)
          ∧ r.warnMissing ≠ [])
    ∧ (Mode.both = Mode.filtered → r.warnMissing = []) :=
  c4_partial_match "Book.xlsx" [some "Fund B", some "Fund D"] Mode.both
    ⟨wbA, wbA⟩ (by decide) (by decide)

/-- C5: whenever a mode that builds the filtered workbook succeeds, the
output file is named "SelectedSheets" with extension ".xlsm" exactly when
the source filename's (case-insensitively lowered) suffix is ".xlsm", and
".xlsx" otherwise; the `keep_vba` flag passed to the workbook loader agrees
with that choice. -/
theorem c5_output_extension (excelName : String) (c : List (Option String))
    (mode : Mode) (st : LoadedState) (r : BuildResult) (st1 : LoadedState)
    (hok : build_outputs excelName (some c) mode st = (Except.ok r, st1))
    (hmode : mode = Mode.filtered ∨ mode = Mode.both) :
    r.filteredOut = some ((applyFilter (parseWanted c) st).wb,
        "SelectedSheets" ++ filteredExt excelName)
  ∧ (filteredExt excelName = ".xlsm" ↔ keepVbaOf excelName = true)
  ∧ (filteredExt excelName = ".xlsx" ↔ keepVbaOf excelName = false)
  ∧ (keepVbaOf excelName = true
      ↔ String.mk (lowerList (pathSuffix excelName).data) = ".xlsm") := by
  have hxx : (".xlsx" : String) ≠ ".xlsm" := by decide
  have hiffs : (filteredExt excelName = ".xlsm" ↔ keepVbaOf excelName = true)
      ∧ (filteredExt excelName = ".xlsx" ↔ keepVbaOf excelName = false)
      ∧ (keepVbaOf excelName = true
          ↔ String.mk (lowerList (pathSuffix excelName).data) = ".xlsm") := by
    by_cases hk : keepVbaOf excelName = true
    · have hk2 : (String.mk (lowerList (pathSuffix excelName).data)
          == (".xlsm" : String)) = true := hk
      refine ⟨by simp [filteredExt, hk], by simp [filteredExt, hk, hxx], ?_⟩
      exact ⟨fun _ => beq_iff_eq.mp hk2, fun _ => hk⟩
    · have hkf : keepVbaOf excelName = false := by simpa using hk
      refine ⟨by simp [filteredExt, hkf, Ne.symm hxx], by simp [filteredExt, hkf], ?_⟩
      constructor
      · intro h
        exact absurd h (by simp [hkf])
      · intro h
        have hk2 : (String.mk (lowerList (pathSuffix excelName).data)
            == (".xlsm" : String)) = false := hkf
        exact absurd (beq_iff_eq.mpr h) (by simp [hk2])
  refine ⟨?_, hiffs⟩
  simp only [build_outputs] at hok
  by_cases hw : (parseWanted c).isEmpty = true
  · rw [if_pos hw] at hok
    exact absurd (congrArg Prod.fst hok) (by simp)
  · rw [if_neg hw] at hok
    by_cases hmf : (matchedOf (parseWanted c) (sheetnames st.wb)).isEmpty = true
    · rw [if_pos hmf] at hok
      exact absurd (congrArg Prod.fst hok) (by simp)
    · rw [if_neg hmf, if_pos hmode] at hok
      have hr := congrArg Prod.fst hok
      simp only [Except.ok.injEq] at hr
      rw [← hr]

/-- C5 witness: an uppercase ".XLSM" source is detected as macro-enabled and
the output gets the ".xlsm" extension; a ".xlsx" source does not. -/
theorem c5_output_extension_witness :
    (filteredExt "Book.XLSM" = ".xlsm" ↔ keepVbaOf "Book.XLSM" = true)
  ∧ keepVbaOf "Book.XLSM" = true
  ∧ filteredExt "Book.XLSM" = ".xlsm"
  ∧ keepVbaOf "Book.xlsx" = false
  ∧ filteredExt "Book.xlsx" = ".xlsx" :=
  ⟨(c5_output_extension "Book.XLSM" [some "Fund A"] Mode.filtered
      ⟨wbA, wbA⟩ _ _ rfl (Or.inl rfl)).2.1, rfl, rfl, rfl, rfl⟩

/-- C6: when none of the wanted names occur among the workbook's sheet
names, the build aborts with the no-match error: no filtered workbook and no
summary is produced, and the workbook state at the abort is the untouched
input state. -/
theorem c6_no_match_abort (excelName : String) (c : List (Option String))
    (mode : Mode) (st : LoadedState)
    (hne : parseWanted c ≠ [])
    (habs : ∀ w ∈ parseWanted c, w ∉ sheetnames st.wb) :
    build_outputs excelName (some c) mode st
      = (Except.error BuildErr.noMatch, st) := by
  have hw : (parseWanted c).isEmpty = false := by
    cases h : parseWanted c with
    | nil => exact absurd h hne
    | cons a l => rfl
  have hmempty : matchedOf (parseWanted c) (sheetnames st.wb) = [] := by
    apply List.filter_eq_nil_iff.mpr
    intro a ha
    intro hc
    exact habs a ha ((contains_true_iff _ _).mp hc)
  have hmf : (matchedOf (parseWanted c) (sheetnames st.wb)).isEmpty = true := by
    rw [hmempty]
    rfl
  simp [build_outputs, hw, hmf]

/-- C6 witness: a selection naming only an absent sheet aborts with the
no-match error and leaves the loaded workbooks untouched. -/
theorem c6_no_match_abort_witness :
    build_outputs "Book.xlsx" (some [some "Fund D"]) Mode.both ⟨wbA, wbA⟩
      = (Except.error BuildErr.noMatch, ⟨wbA, wbA⟩) :=
  c6_no_match_abort "Book.xlsx" [some "Fund D"] Mode.both ⟨wbA, wbA⟩
    (by decide) (by decide)

/-- C7: numeric coercion of NAV/Cash values: any cell text that fails the
numeric parse (for instance "1,234") coerces to a missing value rather than
an error; an empty cell stays missing; a numeric cell value such as 1234.5
is kept unchanged; parseable text denotes its parsed rational. -/
theorem c7_numeric_coercion :
    toNumeric (CellV.str "1,234") = none
  ∧ (∀ s : String, parseNumber s = none → toNumeric (CellV.str s) = none)
  ∧ (∀ q : Rat, toNumeric (CellV.num q) = some q)
  ∧ toNumeric CellV.empty = none
  ∧ (∀ s p, parseNumber s = some p
      → toNumeric (CellV.str s) = some (partsToRat p))
  ∧ parseNumber "1234.5" = some (12345, 1)
  ∧ partsToRat (12345, 1) = (1234.5 : Rat) := by
  refine ⟨rfl, ?_, ?_, rfl, ?_, rfl, ?_⟩
  · intro s h
    simp [toNumeric, h]
  · intro q
    rfl
  · intro s p h
    simp [toNumeric, h]
  · show ((12345 : Int) : Rat) / (10 : Rat) ^ (1 : Nat) = (1234.5 : Rat)
    norm_num

/-- C7 witness: a non-numeric string coerces to missing; the number 1234.5
is kept. -/
theorem c7_numeric_coercion_witness :
    toNumeric (CellV.str "abc") = none
  ∧ toNumeric (CellV.num (1234.5 : Rat)) = some (1234.5 : Rat) :=
  ⟨c7_numeric_coercion.2.1 "abc" rfl, c7_numeric_coercion.2.2.1 (1234.5 : Rat)⟩

/-- C8 counterexample: a whitespace-only SheetName cell is not NaN, so it
survives `dropna` and is trimmed to the empty string: the parsed wanted list
contains a blank entry, and a CSV whose column holds only whitespace-only
rows does not hit the empty-selection abort — it proceeds and (no sheet
being named "") aborts with the no-match error instead. -/
theorem c8_counterexample :
    parseWanted [some " "] = [""]
  ∧ "" ∈ parseWanted [some " "]
  ∧ (build_outputs "Book.xlsx" (some [some " "]) Mode.filtered ⟨wbA, wbA⟩).1
      = Except.error BuildErr.noMatch
  ∧ (build_outputs "Book.xlsx" (some [some " "]) Mode.filtered ⟨wbA, wbA⟩).1
      ≠ Except.error BuildErr.emptySelection := by
  refine ⟨rfl, by decide, rfl, ?_⟩
  intro h
  rw [show (build_outputs "Book.xlsx" (some [some " "]) Mode.filtered
      ⟨wbA, wbA⟩).1 = Except.error BuildErr.noMatch from rfl] at h
  simp at h

/-- C8 (amended): every parsed entry is the whitespace-trim of a present
(non-NaN) column cell and missing cells are dropped, but whitespace-only
cells survive as empty-string entries; hence the empty-selection abort
triggers exactly when the column has no present cell at all. -/
theorem c8_selection_parsing (col : List (Option String)) :
    (∀ e ∈ parseWanted col, ∃ s : String, some s ∈ col ∧ e = pyTrim s)
  ∧ (parseWanted col = [] ↔ ∀ o ∈ col, o = none)
  ∧ (∀ (excelName : String) (mode : Mode) (st : LoadedState),
      (build_outputs excelName (some col) mode st).1
          = Except.error BuildErr.emptySelection
        ↔ ∀ o ∈ col, o = none) := by
  have hnil : parseWanted col = [] ↔ ∀ o ∈ col, o = none := by
    constructor
    · intro h o ho
      cases o with
      | none => rfl
      | some s =>
        exfalso
        have : pyTrim s ∈ parseWanted col := by
          simp only [parseWanted]
          exact List.mem_map_of_mem pyTrim (List.mem_filterMap.mpr ⟨some s, ho, rfl⟩)
        rw [h] at this
        exact absurd this (List.not_mem_nil _)
    · intro h
      simp only [parseWanted]
      have : col.filterMap id = [] := by
        apply List.filterMap_eq_nil_iff.mpr
        intro o ho
        rw [h o ho]
        rfl
      rw [this]
      rfl
  refine ⟨?_, hnil, ?_⟩
  · intro e he
    simp only [parseWanted] at he
    rcases List.mem_map.mp he with ⟨s, hs, hes⟩
    rcases List.mem_filterMap.mp hs with ⟨o, ho, hido⟩
    cases o with
    | none => exact absurd hido (by simp)
    | some t =>
      have hts : t = s := by simpa using hido
      subst hts
      exact ⟨t, ho, hes.symm⟩
  · intro excelName mode st
    constructor
    · intro h
      apply hnil.mp
      by_contra hne
      have hw : (parseWanted col).isEmpty = false := by
        cases hc : parseWanted col with
        | nil => exact absurd hc hne
        | cons a l => rfl
      simp only [build_outputs, hw, Bool.false_eq_true, if_false] at h
      by_cases hmf : (matchedOf (parseWanted col) (sheetnames st.wb)).isEmpty
          = true
      · rw [if_pos hmf] at h
        simp at h
      · rw [if_neg hmf] at h
        simp at h
    · intro h
      have hw : (parseWanted col).isEmpty = true := by
        rw [hnil.mpr h]
        rfl
      simp [build_outputs, hw]

/-- C8 witness: with a column holding one real name and one missing cell,
every entry is a trimmed present cell and the no-abort criterion agrees. -/
theorem c8_selection_parsing_witness :
    (parseWanted [some " Fund B ", none] = []
        ↔ ∀ o ∈ [some " Fund B ", none], o = (none : Option String))
  ∧ parseWanted [some " Fund B ", none] = ["Fund B"] :=
  ⟨(c8_selection_parsing [some " Fund B ", none]).2.1, rfl⟩

/-- C9: summary extraction never drops a row: one row per matched name; a
failing read of the Name cell (B4) yields a missing Name while Cash and NAV
are still computed from their own reads; a failing Cash read (C27) yields a
missing Cash only; a failed NAV scan yields a missing NAV only. -/
theorem c9_field_isolation (wbVals : Workbook) (matched : List String)
    (ws : Sheet) (hfail : getCellE ws 4 2 = Except.error ()) :
    (build_summary wbVals matched).length = matched.length
  ∧ (summaryRow ws).Name = CellV.empty
  ∧ (summaryRow ws).Cash = toNumeric (tryCell ws 27 3)
  ∧ (summaryRow ws).NAV = toNumeric (navValue ws)
  ∧ (∀ ws2 : Sheet, getCellE ws2 27 3 = Except.error () →
      (summaryRow ws2).Cash = none ∧ (summaryRow ws2).Name = tryCell ws2 4 2)
  ∧ (∀ ws2 : Sheet, navScan ws2 = none → (summaryRow ws2).NAV = none) := by
  refine ⟨?_, ?_, rfl, rfl, ?_, ?_⟩
  · simp [build_summary]
  · simp [summaryRow, tryCell, hfail]
  · intro ws2 h
    exact ⟨by simp [summaryRow, tryCell, h, toNumeric], rfl⟩
  · intro ws2 h
    simp [summaryRow, navValue, h, toNumeric]

/-- C9 witness: a one-row sheet (so B4 and C27 are unreadable) whose only
row carries the NAV label still produces a row: Name and Cash degrade to
missing while NAV is extracted. -/
theorem c9_field_isolation_witness :
    (summaryRow [[CellV.str "Total Net Asset Value After IC Fall",
        CellV.num 5000000]]).Name = CellV.empty
  ∧ (summaryRow [[CellV.str "Total Net Asset Value After IC Fall",
        CellV.num 5000000]]).NAV = some (5000000 : Rat)
  ∧ (summaryRow [[CellV.str "Total Net Asset Value After IC Fall",
        CellV.num 5000000]]).Cash = none :=
  ⟨(c9_field_isolation [] []
      [[CellV.str "Total Net Asset Value After IC Fall", CellV.num 5000000]]
      rfl).2.1, rfl, rfl⟩

/-- C10: in mode "Both" the filtering step mutates only `wb`; the summary is
computed from the untouched `wb_vals`, so it equals the summary of the
originally loaded values workbook, with one row per matched name in
matched-list order. -/
theorem c10_summary_unaffected_by_filter (excelName : String)
    (c : List (Option String)) (st : LoadedState) (r : BuildResult)
    (st1 : LoadedState)
    (hok : build_outputs excelName (some c) Mode.both st = (Except.ok r, st1)) :
    st1.wbVals = st.wbVals
  ∧ (∀ S : List String, (applyFilter S st).wbVals = st.wbVals)
  ∧ r.summaryOut = some (build_summary st.wbVals
      (matchedOf (parseWanted c) (sheetnames st.wb)))
  ∧ (build_summary st.wbVals
        (matchedOf (parseWanted c) (sheetnames st.wb))).length
      = (matchedOf (parseWanted c) (sheetnames st.wb)).length := by
  have hframe : ∀ S : List String, (applyFilter S st).wbVals = st.wbVals :=
    fun S => rfl
  simp only [build_outputs] at hok
  by_cases hw : (parseWanted c).isEmpty = true
  · rw [if_pos hw] at hok
    exact absurd (congrArg Prod.fst hok) (by simp)
  · rw [if_neg hw] at hok
    by_cases hmf : (matchedOf (parseWanted c) (sheetnames st.wb)).isEmpty = true
    · rw [if_pos hmf] at hok
      exact absurd (congrArg Prod.fst hok) (by simp)
    · rw [if_neg hmf] at hok
      simp only [or_true, ite_true] at hok
      injection hok with h1 h2
      injection h1 with h3
      refine ⟨?_, hframe, ?_, by simp [build_summary]⟩
      · rw [← h2]
        exact hframe _
      · rw [← h3, hframe]

/-- C10 witness: the concrete "Both" run on the fixture workbook: the final
state still holds the original values workbook and the summary is the one
computed from it. -/
theorem c10_summary_unaffected_by_filter_witness :
    ∃ r st1,
      build_outputs "Book.xlsx" (some [some "Fund B", some "Fund D"]) Mode.both
          ⟨wbA, wbA⟩ = (Except.ok r, st1)
    ∧ st1.wbVals = wbA
    ∧ r.summaryOut = some (build_summary wbA
        (matchedOf (parseWanted [some "Fund B", some "Fund D"])
          (sheetnames wbA))) := by
  have h := c10_summary_unaffected_by_filter "Book.xlsx"
    [some "Fund B", some "Fund D"] ⟨wbA, wbA⟩
    { filteredOut := some ([("Fund B", [])], "SelectedSheets.xlsx"),
      summaryOut := some [{ Name := CellV.empty, NAV := none, Cash := none }],
      warnMissing := ["Fund D"] }
    ⟨[("Fund B", [])], wbA⟩ rfl
  exact ⟨_, _, rfl, h.1, h.2.2.1⟩

end SheetSelector
